import Mathlib

/-!
Verification development for the CUDA rasterization pipeline in
`src/rasterize.cu` (illDivino/Project4-CUDA-Rasterizer).

The device code is shallowly embedded: GPU buffers become total functions
from integer indices, 32-bit floats become exact rationals (float literals
map to the exact rational value of their decimal source text), device
pointers become `Option Nat` addresses, and each kernel body becomes a pure
Lean function over the per-thread inputs.  Loops inside one worker become
folds over explicit index lists; a whole kernel launch becomes a fold of the
per-worker function over the worker list (a sequential determinization of
the unordered CUDA schedule; where the order matters the fold is taken over
an arbitrary order list).

Helper code that the repository uses but whose source is not part of src/
(`rasterizeTools.h` geometry helpers, the thrust library) is modelled from
the specification text; every such definition carries a doc comment that
starts with the words "Modelled from the spec".
-/

namespace Rasterize

/-- Two-component float vector (glm::vec2), embedded over the rationals. -/
structure Vec2 where
  x : ℚ
  y : ℚ
  deriving DecidableEq, Repr

/-- Three-component float vector (glm::vec3), embedded over the rationals. -/
structure Vec3 where
  x : ℚ
  y : ℚ
  z : ℚ
  deriving DecidableEq, Repr

/-- Four-component float vector (glm::vec4), embedded over the rationals. -/
structure Vec4 where
  x : ℚ
  y : ℚ
  z : ℚ
  w : ℚ
  deriving DecidableEq, Repr

instance : Add Vec2 := ⟨fun a b => ⟨a.x + b.x, a.y + b.y⟩⟩

instance : Add Vec3 := ⟨fun a b => ⟨a.x + b.x, a.y + b.y, a.z + b.z⟩⟩

instance : Add Vec4 := ⟨fun a b => ⟨a.x + b.x, a.y + b.y, a.z + b.z, a.w + b.w⟩⟩

instance : SMul ℚ Vec2 := ⟨fun c v => ⟨c * v.x, c * v.y⟩⟩

instance : SMul ℚ Vec3 := ⟨fun c v => ⟨c * v.x, c * v.y, c * v.z⟩⟩

instance : SMul ℚ Vec4 := ⟨fun c v => ⟨c * v.x, c * v.y, c * v.z, c * v.w⟩⟩

/-- Zero vector, the all-zero-bytes value of a glm::vec2. -/
def zero2 : Vec2 := ⟨0, 0⟩

/-- Zero vector, the all-zero-bytes value of a glm::vec3. -/
def zero3 : Vec3 := ⟨0, 0, 0⟩

/-- Dot product of two glm::vec3 values. -/
def Vec3.dot (a b : Vec3) : ℚ := a.x * b.x + a.y * b.y + a.z * b.z

/-- Truncation toward zero, the effect of a C cast from float to int. -/
def ctrunc (q : ℚ) : ℤ := if 0 ≤ q then Int.floor q else -Int.floor (-q)

/-- Pointwise update of a buffer modelled as a total function, the effect of
one store `buf[i] = v` to device memory. -/
def upd {α : Type} (f : ℤ → α) (i : ℤ) (v : α) : ℤ → α :=
  fun j => if j = i then v else f j

/-- INT_MAX for the 32-bit ints of the device code. -/
def INTMAX : ℤ := 2147483647

/-! ## Data model (rasterize.cu lines 36-93) -/

/-- PrimitiveType enum: Point = 1, Line = 2, Triangle = 3. -/
inductive PrimitiveType where
  | Point
  | Line
  | Triangle
  deriving DecidableEq, Repr

/-- Integer value of the PrimitiveType enum, used by the assembly kernel as
the per-primitive vertex count via the cast `(int)primitive.primitiveType`. -/
def PrimitiveType.toInt : PrimitiveType → ℤ
  | .Point => 1
  | .Line => 2
  | .Triangle => 3

/-- VertexOut: the post-transform vertex record.  The TextureData pointer is
modelled as an optional device address. -/
structure VertexOut where
  vertexEyePos : Vec4
  vertexPerspPos : Vec4
  vertexNormal : Vec3
  vertexUV : Vec2
  diffuseTexture : Option ℕ := none
  texWidth : ℤ := 0
  texHeight : ℤ := 0
  deriving DecidableEq, Repr

/-- Primitive: three VertexOut slots (the C array v[3]) plus a cull flag. -/
structure Primitive where
  primitiveType : PrimitiveType := .Triangle
  v0 : VertexOut
  v1 : VertexOut
  v2 : VertexOut
  cull : Bool
  deriving DecidableEq, Repr

/-- Fragment: per-pixel record produced by the rasterizer. -/
structure Fragment where
  eyeNormal : Vec3
  UV : Vec2
  diffuseTexture : Option ℕ
  texWidth : ℤ
  texHeight : ℤ
  deriving DecidableEq, Repr

/-- Value of a Fragment after cudaMemset of the fragment buffer to zero
bytes: zero normal, zero UV, null texture pointer, zero dimensions. -/
def zeroFragment : Fragment :=
  { eyeNormal := zero3, UV := zero2, diffuseTexture := none
    texWidth := 0, texHeight := 0 }

/-! ## Shader (rasterize.cu lines 130-197)

The kernel `render` runs one worker per pixel; the embedding below is its
per-pixel body.  Texture memory is modelled as an environment `mem` mapping
a device address to a byte array (a function from byte index to byte). -/

/-- Compile-time configuration macros of rasterize.cu (lines 26-32). -/
def SAMPLES : ℤ := 1

/-- SAMPLE_WEIGHT = 1.0f / (SAMPLES * SAMPLES). -/
def SAMPLE_WEIGHT : ℚ := 1 / ((SAMPLES : ℚ) * (SAMPLES : ℚ))

/-- The constant `inverse255`, the float literal 0.00392156863f of the
source (an approximation of 1/255, kept exactly as written). -/
def inverse255 : ℚ := 0.00392156863

/-- colorAtPoint: reads byte triple at `index * 3` and scales by inverse255. -/
def colorAtPoint (t : ℤ → ℕ) (index : ℤ) : Vec3 :=
  inverse255 • ⟨(t (index * 3) : ℚ), (t (index * 3 + 1) : ℚ), (t (index * 3 + 2) : ℚ)⟩

/-- sampleBilinear: four texel reads weighted by the fractional UV offsets,
with edge clamping on the three neighbour reads. -/
def sampleBilinear (uv : Vec2) (tex : ℤ → ℕ) (texWidth texHeight : ℤ) : Vec3 :=
  let uFraction0 := uv.x * (texWidth : ℚ)
  let uIndex := ctrunc uFraction0
  let uFraction := uFraction0 - (uIndex : ℚ)
  let vFraction0 := uv.y * (texHeight : ℚ)
  let vIndex := ctrunc vFraction0
  let vFraction := vFraction0 - (vIndex : ℚ)
  let index1D := uIndex + texWidth * vIndex
  ((1 - uFraction) * (1 - vFraction)) • colorAtPoint tex index1D +
    (uFraction * (1 - vFraction)) •
      colorAtPoint tex (if uIndex + 1 < texWidth then index1D + 1 else index1D) +
    ((1 - uFraction) * vFraction) •
      colorAtPoint tex (if vIndex + 1 < texHeight then index1D + texWidth else index1D) +
    (uFraction * vFraction) •
      colorAtPoint tex
        (if uIndex + 1 < texWidth ∧ vIndex + 1 < texHeight then index1D + texWidth + 1
         else index1D)

/-- Componentwise glm::clamp(v, 0.0f, 1.0f). -/
def clamp01 (v : Vec3) : Vec3 :=
  ⟨min (max v.x 0) 1, min (max v.y 0) 1, min (max v.z 0) 1⟩

/-- renderPixel: the body of the `render` kernel for one in-bounds pixel.
Takes the pixel's Fragment `f` and the current framebuffer entry `fb`;
returns the new framebuffer entry.  `mem` resolves texture addresses.
Mirrors rasterize.cu lines 175-196 with BILINEAR enabled:
a zero-normal fragment assigns black to the framebuffer entry and returns;
otherwise the base color is white for a null texture pointer and a bilinear
sample otherwise, lit by `max(dot(normal, (1,1,1)), 0.4f)`, clamped, scaled
by SAMPLE_WEIGHT and added to the framebuffer entry. -/
def renderPixel (mem : ℕ → ℤ → ℕ) (f : Fragment) (fb : Vec3) : Vec3 :=
  if f.eyeNormal = zero3 then zero3
  else
    let color : Vec3 :=
      match f.diffuseTexture with
      | none => ⟨1, 1, 1⟩
      | some addr => sampleBilinear f.UV (mem addr) f.texWidth f.texHeight
    let lightValue : ℚ := max (Vec3.dot f.eyeNormal ⟨1, 1, 1⟩) 0.4
    let diffuse := clamp01 (lightValue • color)
    fb + SAMPLE_WEIGHT • diffuse

/-! ## Culler (rasterize.cu lines 799-847)

The host code calls `thrust::remove_if(thrust::device, dev_primitives,
dev_primitives + totalNumPrimitives, toCull())` and takes
`frontPrims = new_primitive_end - dev_primitives`.  thrust is an external
library; `removeIf` below follows its documented std::remove_if semantics:
walk the range in order and copy forward every element the predicate
rejects, returning the new end of the kept range. -/

/-- toCull: the remove-if predicate, reads the primitive's cull flag. -/
def toCull (p : Primitive) : Bool := p.cull

/-- Modelled from the spec: thrust::remove_if is library code outside src/;
this is the documented copy-forward algorithm of std::remove_if applied to
the predicate, keeping rejected elements in their input order. -/
def removeIf : List Primitive → List Primitive
  | [] => []
  | p :: rest => if toCull p then removeIf rest else p :: removeIf rest

/-- cullPrimitives: the BACKFACE_CULLING stage of `rasterize` (lines
841-847): compacts the primitive list and returns the list together with
the survivor count `frontPrims`. -/
def cullPrimitives (l : List Primitive) : List Primitive × ℕ :=
  (removeIf l, (removeIf l).length)

/-! ## Primitive mode switch in rasterizeSetBuffers (lines 464-494)

Mode constants come from the external tiny_gltf_loader.h header:
POINTS 0, LINE 1, LINE_LOOP 2, TRIANGLES 4, TRIANGLE_STRIP 5,
TRIANGLE_FAN 6. -/

/-- TINYGLTF_MODE_POINTS. -/
def MODE_POINTS : ℤ := 0

/-- TINYGLTF_MODE_LINE. -/
def MODE_LINE : ℤ := 1

/-- TINYGLTF_MODE_LINE_LOOP. -/
def MODE_LINE_LOOP : ℤ := 2

/-- TINYGLTF_MODE_TRIANGLES. -/
def MODE_TRIANGLES : ℤ := 4

/-- TINYGLTF_MODE_TRIANGLE_STRIP. -/
def MODE_TRIANGLE_STRIP : ℤ := 5

/-- TINYGLTF_MODE_TRIANGLE_FAN. -/
def MODE_TRIANGLE_FAN : ℤ := 6

/-- primitiveInfoForMode: the switch over `primitive.mode` in
rasterizeSetBuffers (lines 466-494), computing `primitiveType` and
`numPrimitives` from the index count.  The default case of the source holds
only the comment "output error" and no statement, leaving both locals
uninitialized and reporting nothing: that case is `none` here.  No branch,
default included, produces an error value or stops the surrounding loop. -/
def primitiveInfoForMode (mode : ℤ) (numIndices : ℤ) : Option (PrimitiveType × ℤ) :=
  if mode = MODE_TRIANGLES then some (.Triangle, numIndices / 3)
  else if mode = MODE_TRIANGLE_STRIP then some (.Triangle, numIndices - 2)
  else if mode = MODE_TRIANGLE_FAN then some (.Triangle, numIndices - 2)
  else if mode = MODE_LINE then some (.Line, numIndices / 2)
  else if mode = MODE_LINE_LOOP then some (.Line, numIndices + 1)
  else if mode = MODE_POINTS then some (.Point, numIndices)
  else none

/-! ## Control flow of rasterizeSetBuffers over scene primitives
(lines 421-425 and 650-670)

The nested node/mesh/primitive loops visit mesh primitives in a fixed
order; the embedding flattens that order into one list.  The body guard
`if (primitive.indices.empty()) return;` exits the whole function: step 3
(cudaMalloc of dev_primitives) and the final block (cudaFree of the
buffer-view device copies) never run, and no diagnostic is emitted on that
path. -/

/-- One mesh primitive as seen by rasterizeSetBuffers: its index list and
its glTF mode. -/
structure ScenePrim where
  indices : List ℕ
  mode : ℤ
  deriving DecidableEq, Repr

/-- Outcome of rasterizeSetBuffers: which primitives completed the loop
body, whether the global primitive buffer was allocated (step 3), whether
the temporary buffer-view device copies were freed (final block), and
whether any diagnostic was reported on the taken path. -/
structure SetBuffersResult where
  processed : List ScenePrim
  devPrimitivesAllocated : Bool
  bufferViewsFreed : Bool
  errorReported : Bool
  deriving DecidableEq, Repr

/-- The primitive loop of rasterizeSetBuffers: processes primitives in
order, accumulating the completed ones; an empty index list triggers the
early `return` (second component true). -/
def setBuffersLoop : List ScenePrim → List ScenePrim → List ScenePrim × Bool
  | [], acc => (acc, false)
  | p :: rest, acc =>
    if p.indices = [] then (acc, true)
    else setBuffersLoop rest (acc ++ [p])

/-- rasterizeSetBuffers, reduced to the control flow the claims are about:
runs the primitive loop; on normal completion step 3 allocates the global
primitive buffer and the final block frees the buffer-view copies; on the
early return neither happens.  Neither path reports an error. -/
def rasterizeSetBuffers (prims : List ScenePrim) : SetBuffersResult :=
  let r := setBuffersLoop prims []
  { processed := r.1
    devPrimitivesAllocated := !r.2
    bufferViewsFreed := !r.2
    errorReported := false }

/-! ## VertexTransformer (rasterize.cu lines 695-730)

The kernel `_vertexTransformAndAssembly` touches only the attribute arrays
at its own vertex id, so it is embedded as a pure function of the
per-vertex attribute values.  glm matrices are column-major; `m * v` is the
linear combination of columns by the components of `v`. -/

/-- Column-major 4x4 float matrix (glm::mat4). -/
structure Mat4 where
  c0 : Vec4
  c1 : Vec4
  c2 : Vec4
  c3 : Vec4
  deriving DecidableEq, Repr

/-- Column-major 3x3 float matrix (glm::mat3). -/
structure Mat3 where
  c0 : Vec3
  c1 : Vec3
  c2 : Vec3
  deriving DecidableEq, Repr

/-- Matrix-vector product m * v for glm::mat4. -/
def Mat4.app (m : Mat4) (v : Vec4) : Vec4 :=
  v.x • m.c0 + v.y • m.c1 + v.z • m.c2 + v.w • m.c3

/-- Matrix-vector product m * v for glm::mat3. -/
def Mat3.app (m : Mat3) (v : Vec3) : Vec3 :=
  v.x • m.c0 + v.y • m.c1 + v.z • m.c2

/-- Homogeneous position glm::vec4(position, 1.0f). -/
def worldOf (pos : Vec3) : Vec4 := ⟨pos.x, pos.y, pos.z, 1⟩

/-- vertexTransformAndAssembly: body of `_vertexTransformAndAssembly` for
one vertex.  `perspCorrect` reflects the PERSP_CORRECT macro (both
compile-time variants are embedded).  `normalizeFn` stands for
glm::normalize, whose square root has no exact rational counterpart; the
claims below do not depend on its value.  Steps, in source order: clip
position = MVP * world; divide the whole vec4 by its w; map x and y to the
viewport by `(1 - c) * dimension / 2`; store the UV scaled by `1 / clip.z`
(the z of the already-divided clip variable) when perspCorrect, else
unmodified; store the screen position, the eye position MV * world, the
texture pointer, the normalized transformed normal and the texture
dimensions. -/
def vertexTransformAndAssembly (perspCorrect : Bool) (MVP MV : Mat4) (MVnormal : Mat3)
    (normalizeFn : Vec3 → Vec3) (width height : ℤ) (pos nrm : Vec3) (uv : Vec2)
    (tex : Option ℕ) (texW texH : ℤ) : VertexOut :=
  let world := worldOf pos
  let clip0 := MVP.app world
  let clip1 : Vec4 := ⟨clip0.x / clip0.w, clip0.y / clip0.w, clip0.z / clip0.w, clip0.w / clip0.w⟩
  let clip2 : Vec4 :=
    ⟨(1 - clip1.x) * (width : ℚ) / 2, (1 - clip1.y) * (height : ℚ) / 2, clip1.z, clip1.w⟩
  { vertexUV := if perspCorrect then (1 / clip1.z) • uv else uv
    vertexPerspPos := clip2
    vertexEyePos := MV.app world
    diffuseTexture := tex
    vertexNormal := normalizeFn (MVnormal.app nrm)
    texHeight := texH
    texWidth := texW }

/-! ## PrimitiveAssembler (rasterize.cu lines 679-693)

One worker per index id.  The embedding folds the per-index body over an
explicit list of index ids, so that any write order of the unordered CUDA
schedule is an instance. -/

/-- Write VertexOut `vo` into slot `s` of the array v[3] (s is iid mod k,
so 0, 1 or 2 for triangles). -/
def setSlot (p : Primitive) (s : ℤ) (vo : VertexOut) : Primitive :=
  if s = 0 then { p with v0 := vo }
  else if s = 1 then { p with v1 := vo }
  else { p with v2 := vo }

/-- assemblyStep: the body of `_primitiveAssembly` for index id `iid`:
pid = iid / k + curPrimitiveBeginId with k the integer value of the
primitive type; v = verticesOut[indices[iid]]; write v into slot iid mod k
of primitive pid and set that primitive's cull flag to
`v.vertexNormal[2] < 0`. -/
def assemblyStep (verts : ℤ → VertexOut) (indices : ℤ → ℤ) (k curBegin : ℤ)
    (prims : ℤ → Primitive) (iid : ℤ) : ℤ → Primitive :=
  let pid := iid / k + curBegin
  let v := verts (indices iid)
  let p1 := setSlot (prims pid) (iid % k) v
  upd prims pid { p1 with cull := decide (v.vertexNormal.z < 0) }

/-- primitiveAssembly: the kernel launch, folding the per-index body over
the list `order` of index ids (one entry per worker, in the order their
writes land). -/
def primitiveAssembly (verts : ℤ → VertexOut) (indices : ℤ → ℤ) (k curBegin : ℤ)
    (order : List ℤ) (prims : ℤ → Primitive) : ℤ → Primitive :=
  order.foldl (assemblyStep verts indices k curBegin) prims

/-! ## Rasterizer (rasterize.cu lines 732-796 and 221-232)

`generateFragments` runs one worker per surviving primitive; each worker
scans the bounding box of its triangle, one pixel at a time, round the depth
and fragment buffers.  The geometry helpers it calls live in
rasterizeTools.h, which is not part of src/, so they are modelled from the
specification text. -/

/-- Screen-space triangle: the xyz parts of the three vertexPerspPos. -/
structure Tri where
  a : Vec3
  b : Vec3
  c : Vec3
  deriving DecidableEq, Repr

/-- The xyz part of a glm::vec4 (the cast glm::vec3(v)). -/
def vec3of (v : Vec4) : Vec3 := ⟨v.x, v.y, v.z⟩

/-- Screen triangle of a primitive (rasterize.cu line 761). -/
def triangleOf (p : Primitive) : Tri :=
  ⟨vec3of p.v0.vertexPerspPos, vec3of p.v1.vertexPerspPos, vec3of p.v2.vertexPerspPos⟩

/-- Integer bounding box of a triangle restricted to the frustum. -/
structure AABB where
  minX : ℤ
  minY : ℤ
  maxX : ℤ
  maxY : ℤ
  deriving DecidableEq, Repr

/-- Modelled from the spec: getAABBForTriangle lives in rasterizeTools.h,
which is not in src/.  Spec 4.4 step 2: the integer bounding box of the
three screen-space points, clamped to [0, width) x [0, height); the loop
treats max as exclusive, so the exclusive bounds are clamped to width and
height. -/
def getAABBForTriangle (t : Tri) (width height : ℤ) : AABB :=
  { minX := max 0 (Int.floor (min t.a.x (min t.b.x t.c.x)))
    minY := max 0 (Int.floor (min t.a.y (min t.b.y t.c.y)))
    maxX := min width (Int.floor (max t.a.x (max t.b.x t.c.x)) + 1)
    maxY := min height (Int.floor (max t.a.y (max t.b.y t.c.y)) + 1) }

/-- Signed area of the 2D triangle a b c, half the cross product of its
edge vectors. -/
def signedArea (ax ay bx by2 cx cy : ℚ) : ℚ :=
  ((cx - ax) * (by2 - ay) - (bx - ax) * (cy - ay)) / 2

/-- Modelled from the spec: calculateBarycentricCoordinate lives in
rasterizeTools.h, which is not in src/.  Spec 4.4 step 3: barycentric
coordinates by the standard signed-area ratio method; the first component
is one minus the other two. -/
def calculateBarycentricCoordinate (t : Tri) (p : Vec2) : Vec3 :=
  let A := signedArea t.a.x t.a.y t.b.x t.b.y t.c.x t.c.y
  let beta := signedArea t.a.x t.a.y p.x p.y t.c.x t.c.y / A
  let gamma := signedArea t.a.x t.a.y t.b.x t.b.y p.x p.y / A
  ⟨1 - beta - gamma, beta, gamma⟩

/-- Modelled from the spec: isBarycentricCoordInBounds lives in
rasterizeTools.h, which is not in src/.  Spec 4.4 step 4: a pixel is
covered iff all three barycentric components are at least zero. -/
def isBarycentricCoordInBounds (b : Vec3) : Bool :=
  decide (0 ≤ b.x) && decide (0 ≤ b.y) && decide (0 ≤ b.z)

/-- Modelled from the spec: getZAtCoordinate lives in rasterizeTools.h,
which is not in src/.  Spec 4.4 step 5: the barycentric interpolation of
the per-vertex depth values, whose reciprocal the kernel takes as the
pixel depth. -/
def getZAtCoordinate (b : Vec3) (t : Tri) : ℚ :=
  b.x * t.a.z + b.y * t.b.z + b.z * t.c.z

/-- interpolateBarycentric on vec3 attributes (rasterize.cu line 732). -/
def interpolateBarycentric3 (p0 p1 p2 : Vec3) (coords : Vec3) : Vec3 :=
  coords.x • p0 + coords.y • p1 + coords.z • p2

/-- interpolateBarycentric on vec2 attributes (rasterize.cu line 738). -/
def interpolateBarycentric2 (p0 p1 p2 : Vec2) (coords : Vec3) : Vec2 :=
  coords.x • p0 + coords.y • p1 + coords.z • p2

/-- interpolatePerspective (rasterize.cu line 744): scales the linear
barycentric combination of the three stored vertex UVs by pointDepth. -/
def interpolatePerspective (p : Primitive) (coords : Vec3) (pointDepth : ℚ) : Vec2 :=
  pointDepth • (coords.x • p.v0.vertexUV + coords.y • p.v1.vertexUV +
    coords.z • p.v2.vertexUV)

/-- State of the shared device buffers during a sample pass, plus a log of
every fragment write the pass performed (index and value, in order). -/
structure RState where
  depth : ℤ → ℤ
  frag : ℤ → Fragment
  log : List (ℤ × Fragment)

/-- rastPixel: the loop body of one generateFragments worker for one pixel
(rasterize.cu lines 770-793), with the running buffer state.  The Bool
result records whether the body executed the early `return`.  For a covered
pixel, in source order: compute fragIndex; `return` when it exceeds
width*height; depth = 1 / getZAtCoordinate; atomicMin of the depth entry
with the int cast of depth * INT_MAX; interpolate the eye normal; if the
float depth * INT_MAX equals the depth entry read back after the atomicMin,
build the Fragment (perspective-corrected UV, texture fields from vertex 0,
the interpolated normal) and store it, which the embedding also records in
the write log. -/
def rastPixel (p : Primitive) (tri : Tri) (width height : ℤ) (off : Vec2) (st : RState)
    (x y : ℤ) : RState × Bool :=
  let barycentricCoord := calculateBarycentricCoordinate tri ⟨(x : ℚ) + off.x, (y : ℚ) + off.y⟩
  if isBarycentricCoordInBounds barycentricCoord then
    let fragIndex := y * width + x
    if fragIndex > width * height then (st, true)
    else
      let depth : ℚ := 1 / getZAtCoordinate barycentricCoord tri
      let newDepth := min (st.depth fragIndex) (ctrunc (depth * (INTMAX : ℚ)))
      let st1 : RState := { st with depth := upd st.depth fragIndex newDepth }
      let eyeNormal := interpolateBarycentric3 p.v0.vertexNormal p.v1.vertexNormal
        p.v2.vertexNormal barycentricCoord
      if depth * (INTMAX : ℚ) = ((st1.depth fragIndex : ℤ) : ℚ) then
        let f : Fragment :=
          { UV := interpolatePerspective p barycentricCoord depth
            texWidth := p.v0.texWidth
            texHeight := p.v0.texHeight
            diffuseTexture := p.v0.diffuseTexture
            eyeNormal := eyeNormal }
        ({ st1 with frag := upd st1.frag fragIndex f, log := st1.log ++ [(fragIndex, f)] }, false)
      else (st1, false)
  else (st, false)

/-- rastLoop: the double pixel loop of one generateFragments worker
(rasterize.cu lines 767-795) over an explicit pixel list: run the body on
each pixel in order; when the body executed the early `return`, the
remaining pixels of this worker are abandoned. -/
def rastLoop (p : Primitive) (tri : Tri) (width height : ℤ) (off : Vec2) :
    List (ℤ × ℤ) → RState → RState × Bool
  | [], st => (st, false)
  | (x, y) :: rest, st =>
    let r := rastPixel p tri width height off st x y
    if r.2 then r else rastLoop p tri width height off rest r.1

/-- Integer range [lo, hi) as a list. -/
def intRange (lo hi : ℤ) : List ℤ :=
  (List.range (hi - lo).toNat).map (fun (k : ℕ) => lo + (k : ℤ))

/-- Pixel enumeration of the bounding box in the loop order of the source:
outer loop on x, inner loop on y. -/
def pixelList (bb : AABB) : List (ℤ × ℤ) :=
  (intRange bb.minX bb.maxX).flatMap (fun x => (intRange bb.minY bb.maxY).map (fun y => (x, y)))

/-- generateFragmentsOne: one worker of the generateFragments kernel, for
the primitive it loads: compute the screen triangle and its clamped
bounding box, then run the pixel loop.  Returns the final buffer state and
whether the worker hit the early return. -/
def generateFragmentsOne (p : Primitive) (width height : ℤ) (off : Vec2) (st : RState) :
    RState × Bool :=
  let tri := triangleOf p
  let bb := getAABBForTriangle tri width height
  rastLoop p tri width height off (pixelList bb) st

/-- processPrimitives: the whole generateFragments launch, folding the
per-primitive workers over the primitive list (a sequential
determinization of the unordered schedule; the list order is arbitrary). -/
def processPrimitives (prims : List Primitive) (width height : ℤ) (off : Vec2)
    (st : RState) : RState :=
  prims.foldl (fun s p => (generateFragmentsOne p width height off s).1) st

/-- initDepth (rasterize.cu lines 221-232): one worker per in-frame pixel
stores INT_MAX into its depth entry; the set of indices x + y * width for
0 <= x < width, 0 <= y < height is exactly [0, width * height). -/
def initDepth (width height : ℤ) (old : ℤ → ℤ) : ℤ → ℤ :=
  fun i => if 0 ≤ i ∧ i < width * height then INTMAX else old i

/-- samplePass: one iteration of the per-sample loop of `rasterize`
(lines 853-868): cudaMemset of the whole fragment buffer to zero bytes,
initDepth over the previous pass's depth buffer, then the
generateFragments launch.  The write log starts empty for the pass. -/
def samplePass (prims : List Primitive) (width height : ℤ) (off : Vec2)
    (prevDepth : ℤ → ℤ) : RState :=
  processPrimitives prims width height off
    { depth := initDepth width height prevDepth
      frag := fun _ => zeroFragment
      log := [] }

/-- Modelled from the spec: the perspective-correct interpolation formula
of the glossary and section 8: divide each vertex attribute by its depth,
combine linearly with the barycentric weights, and divide the result by
the linearly combined reciprocal depths. -/
def perspectiveCorrectUV (coords : Vec3) (uv0 uv1 uv2 : Vec2) (z0 z1 z2 : ℚ) : Vec2 :=
  (1 / (coords.x * (1 / z0) + coords.y * (1 / z1) + coords.z * (1 / z2))) •
    (coords.x • ((1 / z0) • uv0) + coords.y • ((1 / z1) • uv1) + coords.z • ((1 / z2) • uv2))

/-! ## Basic lemmas about the embedding's vector and buffer operations -/

theorem vec3_add_components (a b : Vec3) : a + b = ⟨a.x + b.x, a.y + b.y, a.z + b.z⟩ := rfl

theorem Vec3.zero_add (v : Vec3) : zero3 + v = v := by
  cases v
  simp [zero3, vec3_add_components]

theorem upd_same {α : Type} (f : ℤ → α) (i : ℤ) (v : α) : upd f i v i = v := by
  simp [upd]

theorem upd_other {α : Type} (f : ℤ → α) (i j : ℤ) (v : α) (h : j ≠ i) :
    upd f i v j = f j := by
  simp [upd, h]

/-! ## Culler theorems (claim C5) -/

theorem removeIf_eq_filter (l : List Primitive) :
    removeIf l = l.filter (fun p => !toCull p) := by
  induction l with
  | nil => rfl
  | cons p rest ih =>
    by_cases h : toCull p <;> simp [removeIf, h, ih]

theorem filter_length_split (l : List Primitive) :
    (l.filter (fun p => !toCull p)).length + (l.filter (fun p => toCull p)).length
      = l.length := by
  induction l with
  | nil => rfl
  | cons p rest ih =>
    by_cases h : toCull p <;> simp [h, ih] <;> omega

/-- C5: the Culler produces exactly the primitives whose cull flag is
false, as a contiguous prefix in their input order, returns that survivor
count, and the survivor count plus the culled count equals the original
primitive count. -/
theorem culler_stable_compaction (l : List Primitive) :
    (cullPrimitives l).1 = l.filter (fun p => !toCull p) ∧
    (cullPrimitives l).2 = (l.filter (fun p => !toCull p)).length ∧
    (cullPrimitives l).2 + (l.filter (fun p => toCull p)).length = l.length := by
  refine ⟨removeIf_eq_filter l, ?_, ?_⟩
  · simp [cullPrimitives, removeIf_eq_filter]
  · simp [cullPrimitives, removeIf_eq_filter]
    exact filter_length_split l

/-! ## Primitive-mode theorems (claim C7) -/

/-- C7: the claim asks that any non-triangle primitive mode be rejected at
assembly time with a reported error.  The code does the opposite: mode
TINYGLTF_MODE_LINE with six indices is assembled as a Line primitive with
numPrimitives = 3 and pushed downstream, and an unrecognized mode (here 3)
falls into the default case whose only content is a comment, producing no
primitive info and no error either.  No branch of the switch yields an
error value. -/
theorem mode_switch_accepts_nontriangle :
    primitiveInfoForMode MODE_LINE 6 = some (PrimitiveType.Line, 3) ∧
    primitiveInfoForMode 3 6 = none := by
  constructor <;> rfl

/-! ## rasterizeSetBuffers control-flow theorems (claim C9) -/

theorem setBuffersLoop_all_nonempty (l₁ : List ScenePrim) (rest acc : List ScenePrim)
    (h : ∀ q ∈ l₁, q.indices ≠ []) :
    setBuffersLoop (l₁ ++ rest) acc = setBuffersLoop rest (acc ++ l₁) := by
  induction l₁ generalizing acc with
  | nil => simp
  | cons q l ih =>
    have hq : q.indices ≠ [] := h q (by simp)
    simp only [List.cons_append, setBuffersLoop, if_neg hq, List.append_eq]
    rw [ih (acc ++ [q]) (fun r hr => h r (List.mem_cons_of_mem q hr))]
    simp

/-- C9: a mesh primitive with an empty index list makes rasterizeSetBuffers
return immediately: no error is reported, the primitives after it are left
unprocessed, the global primitive buffer is never allocated and the
temporary buffer-view device copies are never freed. -/
theorem setBuffers_empty_indices_early_return (l₁ l₂ : List ScenePrim) (p : ScenePrim)
    (hp : p.indices = []) (h₁ : ∀ q ∈ l₁, q.indices ≠ []) :
    rasterizeSetBuffers (l₁ ++ p :: l₂) =
      { processed := l₁, devPrimitivesAllocated := false, bufferViewsFreed := false
        errorReported := false } := by
  unfold rasterizeSetBuffers
  rw [setBuffersLoop_all_nonempty l₁ (p :: l₂) [] h₁]
  simp [setBuffersLoop, hp]

/-- Witness for C9 at a concrete scene: one well-formed primitive, then one
with an empty index list, then another well-formed one. -/
theorem setBuffers_empty_indices_early_return_witness :
    rasterizeSetBuffers [⟨[0, 1, 2], 4⟩, ⟨[], 4⟩, ⟨[3, 4, 5], 4⟩] =
      { processed := [⟨[0, 1, 2], 4⟩], devPrimitivesAllocated := false
        bufferViewsFreed := false, errorReported := false } := by
  exact setBuffers_empty_indices_early_return [⟨[0, 1, 2], 4⟩] [⟨[3, 4, 5], 4⟩]
    ⟨[], 4⟩ rfl (by decide)

/-! ## Shader theorems (claims C2 and C8) -/

/-- C2 counterexample: the claim says a pixel whose fragment normal is the
zero vector leaves contributions accumulated by earlier sample passes
intact; but for a framebuffer entry already holding (1/2, 1/2, 1/2), the
shader overwrites it with black instead of keeping it. -/
theorem render_zero_normal_discards_accumulator :
    renderPixel (fun _ _ => 0)
      { eyeNormal := zero3, UV := zero2, diffuseTexture := none, texWidth := 0, texHeight := 0 }
      ⟨1, 1, 1⟩ ≠ ⟨1, 1, 1⟩ := by
  decide

/-- C2 amended: for a pixel with a nonzero fragment normal the shader's
contribution is additive (the new accumulator entry is the old one plus
the pixel's own pass contribution); but for a pixel whose fragment normal
is the zero vector the shader overwrites the accumulator entry with the
background color black, discarding contributions of earlier sample
passes. -/
theorem render_additive_or_overwrite (mem : ℕ → ℤ → ℕ) (f : Fragment) (fb : Vec3) :
    (f.eyeNormal = zero3 → renderPixel mem f fb = zero3) ∧
    (f.eyeNormal ≠ zero3 → renderPixel mem f fb = fb + renderPixel mem f zero3) := by
  constructor
  · intro h
    simp [renderPixel, h]
  · intro h
    simp [renderPixel, h, Vec3.zero_add]

/-- Witness for C2 (amended) at concrete fragments: a zero-normal fragment
maps the (1/2, 1/2, 1/2) accumulator entry to black, and a unit-z-normal
untextured fragment adds its own contribution to that entry. -/
theorem render_additive_or_overwrite_witness :
    renderPixel (fun _ _ => 0)
      { eyeNormal := zero3, UV := zero2, diffuseTexture := none, texWidth := 0, texHeight := 0 }
      ⟨1/2, 1/2, 1/2⟩ = zero3 ∧
    renderPixel (fun _ _ => 0)
      { eyeNormal := ⟨0, 0, 1⟩, UV := zero2, diffuseTexture := none, texWidth := 0, texHeight := 0 }
      ⟨1/2, 1/2, 1/2⟩ =
      ⟨1/2, 1/2, 1/2⟩ + renderPixel (fun _ _ => 0)
        { eyeNormal := ⟨0, 0, 1⟩, UV := zero2, diffuseTexture := none, texWidth := 0, texHeight := 0 }
        zero3 := by
  constructor
  · exact (render_additive_or_overwrite _ _ _).1 rfl
  · exact (render_additive_or_overwrite _ _ _).2 (by decide)

/-- C8: a fragment with a nonzero normal and a null diffuse-texture pointer
is shaded with base color white (1, 1, 1): its pixel receives the old
accumulator value plus SAMPLE_WEIGHT times the clamped lambert-lit white
color, rather than an error value or the background. -/
theorem render_null_texture_lambert_white (mem : ℕ → ℤ → ℕ) (f : Fragment) (fb : Vec3)
    (hn : f.eyeNormal ≠ zero3) (ht : f.diffuseTexture = none) :
    renderPixel mem f fb =
      fb + SAMPLE_WEIGHT • clamp01 ((max (Vec3.dot f.eyeNormal ⟨1, 1, 1⟩) 0.4) • ⟨1, 1, 1⟩) := by
  simp [renderPixel, hn, ht]

/-- Witness for C8 at a concrete untextured fragment with unit z normal. -/
theorem render_null_texture_lambert_white_witness :
    renderPixel (fun _ _ => 0)
      { eyeNormal := ⟨0, 0, 1⟩, UV := zero2, diffuseTexture := none, texWidth := 0, texHeight := 0 }
      ⟨1/4, 1/4, 1/4⟩ =
      ⟨1/4, 1/4, 1/4⟩ + SAMPLE_WEIGHT •
        clamp01 ((max (Vec3.dot ⟨0, 0, 1⟩ ⟨1, 1, 1⟩) 0.4) • ⟨1, 1, 1⟩) := by
  exact render_null_texture_lambert_white (fun _ _ => 0) _ _ (by decide) rfl

/-! ## PrimitiveAssembler theorems (claim C4) -/

theorem assembly_foldl_no_write (verts : ℤ → VertexOut) (indices : ℤ → ℤ) (k curBegin : ℤ)
    (l : List ℤ) (prims : ℤ → Primitive) (pid : ℤ)
    (h : ∀ i ∈ l, i / k + curBegin ≠ pid) :
    (List.foldl (assemblyStep verts indices k curBegin) prims l) pid = prims pid := by
  induction l generalizing prims with
  | nil => rfl
  | cons i rest ih =>
    have hi : i / k + curBegin ≠ pid := h i (by simp)
    simp only [List.foldl_cons]
    rw [ih _ (fun r hr => h r (List.mem_cons_of_mem i hr))]
    simp only [assemblyStep]
    exact upd_other _ _ _ _ (Ne.symm hi)

/-- C4: folding the assembly kernel over any write order, the cull flag of
a fully assembled triangle primitive is true exactly when the eye-space
normal of the vertex written by the last index id that targets this
primitive has a negative z component. -/
theorem assembly_cull_last_write (verts : ℤ → VertexOut) (indices : ℤ → ℤ) (curBegin : ℤ)
    (prims : ℤ → Primitive) (order1 order2 : List ℤ) (j pid : ℤ)
    (hj : j / 3 + curBegin = pid)
    (hafter : ∀ i ∈ order2, i / 3 + curBegin ≠ pid)
    (_hfilled : ∀ s : Fin 3, ∃ i ∈ order1 ++ [j], i / 3 + curBegin = pid ∧ i % 3 = (s.val : ℤ)) :
    ((primitiveAssembly verts indices 3 curBegin (order1 ++ j :: order2) prims) pid).cull = true
      ↔ (verts (indices j)).vertexNormal.z < 0 := by
  unfold primitiveAssembly
  rw [List.foldl_append]
  simp only [List.foldl_cons]
  rw [assembly_foldl_no_write verts indices 3 curBegin order2 _ pid hafter]
  simp only [assemblyStep, hj]
  rw [upd_same]
  simp

/-- Witness for C4: three indices 0, 1, 2 assemble primitive 0; index 2
lands last, its vertex normal has z = -1, and the assembled primitive's
cull flag agrees with that last vertex's normal sign. -/
theorem assembly_cull_last_write_witness :
    ((primitiveAssembly
        (fun n => { vertexEyePos := ⟨0, 0, 0, 1⟩, vertexPerspPos := ⟨0, 0, 0, 1⟩
                    vertexNormal := ⟨0, 0, if n = 2 then -1 else 1⟩, vertexUV := ⟨0, 0⟩ })
        (fun i => i) 3 0 ([0, 1] ++ 2 :: []) (fun _ =>
          { v0 := { vertexEyePos := ⟨0, 0, 0, 1⟩, vertexPerspPos := ⟨0, 0, 0, 1⟩
                    vertexNormal := zero3, vertexUV := ⟨0, 0⟩ }
            v1 := { vertexEyePos := ⟨0, 0, 0, 1⟩, vertexPerspPos := ⟨0, 0, 0, 1⟩
                    vertexNormal := zero3, vertexUV := ⟨0, 0⟩ }
            v2 := { vertexEyePos := ⟨0, 0, 0, 1⟩, vertexPerspPos := ⟨0, 0, 0, 1⟩
                    vertexNormal := zero3, vertexUV := ⟨0, 0⟩ }
            cull := false })) 0).cull = true
      ↔ ((fun (n : ℤ) =>
            ({ vertexEyePos := ⟨0, 0, 0, 1⟩, vertexPerspPos := ⟨0, 0, 0, 1⟩
               vertexNormal := ⟨0, 0, if n = 2 then -1 else 1⟩
               vertexUV := ⟨0, 0⟩ } : VertexOut)) ((fun (i : ℤ) => i) 2)).vertexNormal.z < 0 := by
  exact assembly_cull_last_write _ _ 0 _ [0, 1] [] 2 0 (by decide) (by decide) (by decide)

/-! ## Rasterizer theorems (claims C1, C6 and C10)

The concrete witnesses below evaluate the embedded kernels on closed
inputs with `decide`; the rational arithmetic of the embedding must be
reducible for that, which the following commands restore locally. -/

set_option allowUnsafeReducibility true

attribute [local semireducible] Rat.mul Rat.add Rat.sub Rat.inv Rat.ofScientific

theorem rastPixel_depth_le (p : Primitive) (tri : Tri) (w h : ℤ) (off : Vec2)
    (st : RState) (x y j : ℤ) :
    ((rastPixel p tri w h off st x y).1).depth j ≤ st.depth j := by
  simp only [rastPixel]
  split_ifs with h1 h2 h3
  · exact le_refl _
  · by_cases hj : j = y * w + x
    · subst hj
      simp [upd_same]
    · simp [upd_other _ _ _ _ hj]
  · by_cases hj : j = y * w + x
    · subst hj
      simp [upd_same]
    · simp [upd_other _ _ _ _ hj]
  · exact le_refl _

theorem rastPixel_inframe (p : Primitive) (tri : Tri) (w h : ℤ) (off : Vec2)
    (st : RState) (x y : ℤ) (hx : 0 ≤ x) (hx2 : x < w) (hy : 0 ≤ y) (hy2 : y < h) :
    (rastPixel p tri w h off st x y).2 = false ∧
    ∀ j, (j < 0 ∨ w * h ≤ j) →
      ((rastPixel p tri w h off st x y).1.depth j = st.depth j ∧
       (rastPixel p tri w h off st x y).1.frag j = st.frag j) := by
  have hw : 0 < w := lt_of_le_of_lt hx hx2
  have hIlo : 0 ≤ y * w + x := by positivity
  have hIhi : y * w + x < w * h := by
    nlinarith [mul_le_mul_of_nonneg_right (by omega : y + 1 ≤ h) hw.le]
  simp only [rastPixel]
  split_ifs with h1 h2 h3
  · omega
  · refine ⟨rfl, fun j hj => ?_⟩
    have hjne : j ≠ y * w + x := by omega
    simp [upd_other _ _ _ _ hjne]
  · refine ⟨rfl, fun j hj => ?_⟩
    have hjne : j ≠ y * w + x := by omega
    simp [upd_other _ _ _ _ hjne]
  · exact ⟨rfl, fun j hj => ⟨rfl, rfl⟩⟩

theorem rastPixel_inv (p : Primitive) (tri : Tri) (w h : ℤ) (off : Vec2)
    (st : RState) (x y : ℤ)
    (hInv : ∀ j, st.frag j = zeroFragment ∨ (j, st.frag j) ∈ st.log) :
    ∀ j, (rastPixel p tri w h off st x y).1.frag j = zeroFragment ∨
      (j, (rastPixel p tri w h off st x y).1.frag j) ∈ (rastPixel p tri w h off st x y).1.log := by
  intro j
  simp only [rastPixel]
  split_ifs with h1 h2 h3
  · exact hInv j
  · by_cases hj : j = y * w + x
    · subst hj
      right
      simp [upd_same]
    · rcases hInv j with hz | hm
      · left
        simpa [upd_other _ _ _ _ hj] using hz
      · right
        simp only [upd_other _ _ _ _ hj]
        exact List.mem_append_left _ hm
  · exact hInv j
  · exact hInv j

theorem mem_intRange {lo hi a : ℤ} (h : a ∈ intRange lo hi) : lo ≤ a ∧ a < hi := by
  obtain ⟨k, hk, rfl⟩ := List.mem_map.mp h
  have hk2 : k < (hi - lo).toNat := List.mem_range.mp hk
  omega

theorem pixelList_bounds (tri : Tri) (w h : ℤ) (x y : ℤ)
    (hmem : (x, y) ∈ pixelList (getAABBForTriangle tri w h)) :
    0 ≤ x ∧ x < w ∧ 0 ≤ y ∧ y < h := by
  simp only [pixelList, List.mem_flatMap, List.mem_map] at hmem
  obtain ⟨a, ha, b, hb, heq⟩ := hmem
  obtain ⟨rfl, rfl⟩ : a = x ∧ b = y := by
    constructor
    · exact congrArg Prod.fst heq
    · exact congrArg Prod.snd heq
  have h1 := mem_intRange ha
  have h2 := mem_intRange hb
  simp only [getAABBForTriangle] at h1 h2
  refine ⟨?_, ?_, ?_, ?_⟩
  · exact le_trans (le_max_left 0 _) h1.1
  · exact lt_of_lt_of_le h1.2 (min_le_left _ _)
  · exact le_trans (le_max_left 0 _) h2.1
  · exact lt_of_lt_of_le h2.2 (min_le_left _ _)

theorem rastLoop_inframe (p : Primitive) (tri : Tri) (w h : ℤ) (off : Vec2)
    (l : List (ℤ × ℤ)) (st : RState)
    (hl : ∀ xy ∈ l, 0 ≤ xy.1 ∧ xy.1 < w ∧ 0 ≤ xy.2 ∧ xy.2 < h) :
    (rastLoop p tri w h off l st).2 = false ∧
    ∀ j, (j < 0 ∨ w * h ≤ j) →
      ((rastLoop p tri w h off l st).1.depth j = st.depth j ∧
       (rastLoop p tri w h off l st).1.frag j = st.frag j) := by
  induction l generalizing st with
  | nil => exact ⟨rfl, fun j hj => ⟨rfl, rfl⟩⟩
  | cons xy rest ih =>
    obtain ⟨x, y⟩ := xy
    have hxy := hl (x, y) (by simp)
    have hstep := rastPixel_inframe p tri w h off st x y hxy.1 hxy.2.1 hxy.2.2.1 hxy.2.2.2
    simp only [rastLoop, hstep.1, Bool.false_eq_true, if_false]
    have hrest := ih (rastPixel p tri w h off st x y).1 (fun r hr => hl r (by simp [hr]))
    refine ⟨hrest.1, fun j hj => ?_⟩
    exact ⟨(hrest.2 j hj).1.trans (hstep.2 j hj).1, (hrest.2 j hj).2.trans (hstep.2 j hj).2⟩

/-- C1: every worker of the generateFragments kernel never executes the
early return (so every pixel of its clamped bounding box is processed),
and it leaves both the depth buffer and the fragment buffer unchanged at
every index outside [0, width * height): the kernel performs no
out-of-range write at all.  With the bounding box clamped to the frame,
every computed fragment index is in range, so in particular any pixel with
an out-of-range fragment index receives no write and no pixel of the
primitive is skipped. -/
theorem generateFragments_no_oob_write (p : Primitive) (w h : ℤ) (off : Vec2) (st : RState) :
    (generateFragmentsOne p w h off st).2 = false ∧
    ∀ j, (j < 0 ∨ w * h ≤ j) →
      ((generateFragmentsOne p w h off st).1.depth j = st.depth j ∧
       (generateFragmentsOne p w h off st).1.frag j = st.frag j) := by
  unfold generateFragmentsOne
  exact rastLoop_inframe p _ w h off _ st
    (fun xy hxy => pixelList_bounds _ w h xy.1 xy.2 (by simpa using hxy))

/-- Witness for C1: a unit triangle on a 1 x 1 frame: the worker does not
abort, and the buffer entries at the out-of-range indices 1 (= width *
height) and -1 keep their previous values. -/
theorem generateFragments_no_oob_write_witness :
    (generateFragmentsOne
        { v0 := { vertexEyePos := ⟨0, 0, 0, 1⟩, vertexPerspPos := ⟨0, 0, 1, 1⟩
                  vertexNormal := ⟨0, 0, 1⟩, vertexUV := ⟨0, 0⟩ }
          v1 := { vertexEyePos := ⟨0, 0, 0, 1⟩, vertexPerspPos := ⟨1, 0, 1, 1⟩
                  vertexNormal := ⟨0, 0, 1⟩, vertexUV := ⟨0, 0⟩ }
          v2 := { vertexEyePos := ⟨0, 0, 0, 1⟩, vertexPerspPos := ⟨0, 1, 1, 1⟩
                  vertexNormal := ⟨0, 0, 1⟩, vertexUV := ⟨0, 0⟩ }
          cull := false } 1 1 ⟨0, 0⟩
        { depth := fun _ => 7, frag := fun _ => zeroFragment, log := [] }).2 = false ∧
    ((generateFragmentsOne
        { v0 := { vertexEyePos := ⟨0, 0, 0, 1⟩, vertexPerspPos := ⟨0, 0, 1, 1⟩
                  vertexNormal := ⟨0, 0, 1⟩, vertexUV := ⟨0, 0⟩ }
          v1 := { vertexEyePos := ⟨0, 0, 0, 1⟩, vertexPerspPos := ⟨1, 0, 1, 1⟩
                  vertexNormal := ⟨0, 0, 1⟩, vertexUV := ⟨0, 0⟩ }
          v2 := { vertexEyePos := ⟨0, 0, 0, 1⟩, vertexPerspPos := ⟨0, 1, 1, 1⟩
                  vertexNormal := ⟨0, 0, 1⟩, vertexUV := ⟨0, 0⟩ }
          cull := false } 1 1 ⟨0, 0⟩
        { depth := fun _ => 7, frag := fun _ => zeroFragment, log := [] }).1.depth 1 =
      ({ depth := fun _ => 7, frag := fun _ => zeroFragment, log := [] } : RState).depth 1) ∧
    ((generateFragmentsOne
        { v0 := { vertexEyePos := ⟨0, 0, 0, 1⟩, vertexPerspPos := ⟨0, 0, 1, 1⟩
                  vertexNormal := ⟨0, 0, 1⟩, vertexUV := ⟨0, 0⟩ }
          v1 := { vertexEyePos := ⟨0, 0, 0, 1⟩, vertexPerspPos := ⟨1, 0, 1, 1⟩
                  vertexNormal := ⟨0, 0, 1⟩, vertexUV := ⟨0, 0⟩ }
          v2 := { vertexEyePos := ⟨0, 0, 0, 1⟩, vertexPerspPos := ⟨0, 1, 1, 1⟩
                  vertexNormal := ⟨0, 0, 1⟩, vertexUV := ⟨0, 0⟩ }
          cull := false } 1 1 ⟨0, 0⟩
        { depth := fun _ => 7, frag := fun _ => zeroFragment, log := [] }).1.frag (-1) =
      ({ depth := fun _ => 7, frag := fun _ => zeroFragment, log := [] } : RState).frag (-1)) := by
  refine ⟨(generateFragments_no_oob_write _ 1 1 _ _).1, ?_, ?_⟩
  · exact ((generateFragments_no_oob_write _ 1 1 _ _).2 1 (Or.inr (by decide))).1
  · exact ((generateFragments_no_oob_write _ 1 1 _ _).2 (-1) (Or.inl (by decide))).2

theorem rastLoop_depth_le (p : Primitive) (tri : Tri) (w h : ℤ) (off : Vec2)
    (l : List (ℤ × ℤ)) (st : RState) (i : ℤ) :
    (rastLoop p tri w h off l st).1.depth i ≤ st.depth i := by
  induction l generalizing st with
  | nil => exact le_refl _
  | cons xy rest ih =>
    obtain ⟨x, y⟩ := xy
    simp only [rastLoop]
    by_cases hr : (rastPixel p tri w h off st x y).2 = true
    · simp only [hr, if_true]
      exact rastPixel_depth_le p tri w h off st x y i
    · simp only [hr, if_false]
      exact le_trans (ih _) (rastPixel_depth_le p tri w h off st x y i)

theorem processPrimitives_depth_le (prims : List Primitive) (w h : ℤ) (off : Vec2)
    (st : RState) (i : ℤ) :
    (processPrimitives prims w h off st).depth i ≤ st.depth i := by
  induction prims generalizing st with
  | nil => exact le_refl _
  | cons p rest ih =>
    have hcons : processPrimitives (p :: rest) w h off st
        = processPrimitives rest w h off (generateFragmentsOne p w h off st).1 := rfl
    rw [hcons]
    refine le_trans (ih _) ?_
    unfold generateFragmentsOne
    exact rastLoop_depth_le p _ w h off _ st i

/-- C6: every depth buffer entry of the frame starts the sample pass at
INT_MAX (the maximum representable value of the 32-bit encoding), and the
generateFragments launch only updates entries with minimum-combine
semantics, so from any intermediate buffer state onward every entry is
monotonically non-increasing across the writes of the pass. -/
theorem depth_init_max_and_monotone :
    (∀ (w h : ℤ) (prev : ℤ → ℤ) (i : ℤ), 0 ≤ i → i < w * h → initDepth w h prev i = INTMAX) ∧
    (∀ (prims : List Primitive) (w h : ℤ) (off : Vec2) (st : RState) (i : ℤ),
      (processPrimitives prims w h off st).depth i ≤ st.depth i) := by
  constructor
  · intro w h prev i h0 h1
    simp [initDepth, h0, h1]
  · intro prims w h off st i
    exact processPrimitives_depth_le prims w h off st i

/-- Witness for C6: on a 1 x 1 frame, entry 0 is initialized to INT_MAX,
and running the kernel on the unit triangle from a buffer holding 5 yields
an entry at most 5. -/
theorem depth_init_max_and_monotone_witness :
    initDepth 1 1 (fun _ => 0) 0 = INTMAX ∧
    (processPrimitives
        [{ v0 := { vertexEyePos := ⟨0, 0, 0, 1⟩, vertexPerspPos := ⟨0, 0, 1, 1⟩
                   vertexNormal := ⟨0, 0, 1⟩, vertexUV := ⟨0, 0⟩ }
           v1 := { vertexEyePos := ⟨0, 0, 0, 1⟩, vertexPerspPos := ⟨1, 0, 1, 1⟩
                   vertexNormal := ⟨0, 0, 1⟩, vertexUV := ⟨0, 0⟩ }
           v2 := { vertexEyePos := ⟨0, 0, 0, 1⟩, vertexPerspPos := ⟨0, 1, 1, 1⟩
                   vertexNormal := ⟨0, 0, 1⟩, vertexUV := ⟨0, 0⟩ }
           cull := false }] 1 1 ⟨0, 0⟩
        { depth := fun _ => 5, frag := fun _ => zeroFragment, log := [] }).depth 0 ≤
      ({ depth := fun _ => 5, frag := fun _ => zeroFragment, log := [] } : RState).depth 0 := by
  constructor
  · exact depth_init_max_and_monotone.1 1 1 (fun _ => 0) 0 (by decide) (by decide)
  · exact depth_init_max_and_monotone.2 _ 1 1 ⟨0, 0⟩ _ 0

theorem rastLoop_inv (p : Primitive) (tri : Tri) (w h : ℤ) (off : Vec2)
    (l : List (ℤ × ℤ)) (st : RState)
    (hInv : ∀ j, st.frag j = zeroFragment ∨ (j, st.frag j) ∈ st.log) :
    ∀ j, (rastLoop p tri w h off l st).1.frag j = zeroFragment ∨
      (j, (rastLoop p tri w h off l st).1.frag j) ∈ (rastLoop p tri w h off l st).1.log := by
  induction l generalizing st with
  | nil => exact hInv
  | cons xy rest ih =>
    obtain ⟨x, y⟩ := xy
    simp only [rastLoop]
    by_cases hr : (rastPixel p tri w h off st x y).2 = true
    · simp only [hr, if_true]
      exact rastPixel_inv p tri w h off st x y hInv
    · simp only [hr, if_false]
      exact ih _ (rastPixel_inv p tri w h off st x y hInv)

theorem processPrimitives_inv (prims : List Primitive) (w h : ℤ) (off : Vec2)
    (st : RState)
    (hInv : ∀ j, st.frag j = zeroFragment ∨ (j, st.frag j) ∈ st.log) :
    ∀ j, (processPrimitives prims w h off st).frag j = zeroFragment ∨
      (j, (processPrimitives prims w h off st).frag j) ∈ (processPrimitives prims w h off st).log := by
  induction prims generalizing st with
  | nil => exact hInv
  | cons p rest ih =>
    have hcons : processPrimitives (p :: rest) w h off st
        = processPrimitives rest w h off (generateFragmentsOne p w h off st).1 := rfl
    rw [hcons]
    refine ih _ ?_
    unfold generateFragmentsOne
    exact rastLoop_inv p _ w h off _ st hInv

/-- C10: a sample pass starts from a fragment buffer memset to zero bytes
and a re-initialized depth buffer, so any pixel whose fragment holds a
nonzero normal after the pass was stored by a depth-test-winning fragment
write of this same pass (the pass's write log contains that pixel's final
fragment). -/
theorem samplePass_nonzero_normal_written_this_pass (prims : List Primitive) (w h : ℤ)
    (off : Vec2) (prevDepth : ℤ → ℤ) (i : ℤ)
    (hne : ((samplePass prims w h off prevDepth).frag i).eyeNormal ≠ zero3) :
    (i, (samplePass prims w h off prevDepth).frag i) ∈ (samplePass prims w h off prevDepth).log := by
  have hInv := processPrimitives_inv prims w h off
    { depth := initDepth w h prevDepth, frag := fun _ => zeroFragment, log := [] }
    (fun j => Or.inl rfl) i
  rcases hInv with hz | hm
  · exact absurd (congrArg Fragment.eyeNormal hz) hne
  · exact hm

/-- Witness for C10: the unit triangle covers pixel 0 of a 1 x 1 frame and
wins its depth test; the pass leaves a nonzero normal there, and that
fragment is indeed in the pass's write log. -/
theorem samplePass_nonzero_normal_written_this_pass_witness :
    ((samplePass
        [{ v0 := { vertexEyePos := ⟨0, 0, 0, 1⟩, vertexPerspPos := ⟨0, 0, 1, 1⟩
                   vertexNormal := ⟨0, 0, 1⟩, vertexUV := ⟨0, 0⟩ }
           v1 := { vertexEyePos := ⟨0, 0, 0, 1⟩, vertexPerspPos := ⟨1, 0, 1, 1⟩
                   vertexNormal := ⟨0, 0, 1⟩, vertexUV := ⟨0, 0⟩ }
           v2 := { vertexEyePos := ⟨0, 0, 0, 1⟩, vertexPerspPos := ⟨0, 1, 1, 1⟩
                   vertexNormal := ⟨0, 0, 1⟩, vertexUV := ⟨0, 0⟩ }
           cull := false }] 1 1 ⟨0, 0⟩ (fun _ => 0)).frag 0).eyeNormal ≠ zero3 ∧
    (0, (samplePass
        [{ v0 := { vertexEyePos := ⟨0, 0, 0, 1⟩, vertexPerspPos := ⟨0, 0, 1, 1⟩
                   vertexNormal := ⟨0, 0, 1⟩, vertexUV := ⟨0, 0⟩ }
           v1 := { vertexEyePos := ⟨0, 0, 0, 1⟩, vertexPerspPos := ⟨1, 0, 1, 1⟩
                   vertexNormal := ⟨0, 0, 1⟩, vertexUV := ⟨0, 0⟩ }
           v2 := { vertexEyePos := ⟨0, 0, 0, 1⟩, vertexPerspPos := ⟨0, 1, 1, 1⟩
                   vertexNormal := ⟨0, 0, 1⟩, vertexUV := ⟨0, 0⟩ }
           cull := false }] 1 1 ⟨0, 0⟩ (fun _ => 0)).frag 0) ∈
      (samplePass
        [{ v0 := { vertexEyePos := ⟨0, 0, 0, 1⟩, vertexPerspPos := ⟨0, 0, 1, 1⟩
                   vertexNormal := ⟨0, 0, 1⟩, vertexUV := ⟨0, 0⟩ }
           v1 := { vertexEyePos := ⟨0, 0, 0, 1⟩, vertexPerspPos := ⟨1, 0, 1, 1⟩
                   vertexNormal := ⟨0, 0, 1⟩, vertexUV := ⟨0, 0⟩ }
           v2 := { vertexEyePos := ⟨0, 0, 0, 1⟩, vertexPerspPos := ⟨0, 1, 1, 1⟩
                   vertexNormal := ⟨0, 0, 1⟩, vertexUV := ⟨0, 0⟩ }
           cull := false }] 1 1 ⟨0, 0⟩ (fun _ => 0)).log := by
  constructor
  · decide
  · exact samplePass_nonzero_normal_written_this_pass _ 1 1 _ _ 0 (by decide)

/-! ## VertexTransformer theorems (claim C3)

The kernel's compensating multiplier at a covered pixel is
`depth = 1.0f / getZAtCoordinate(barycentricCoord, triangle)` (rasterize.cu
line 777), the reciprocal of the linearly interpolated per-vertex z values
of the screen triangle - the same z values by which the transformer
pre-divided the UVs.  That multiplier is not the reciprocal of the
interpolated reciprocal depths, so the resulting UV is not the
perspective-correct value of the spec's formula. -/

/-- C3 counterexample: a primitive whose stored UVs are pre-divided by its
own screen depths 1, 2 and 4 (exactly the configuration the transformer
produces), at barycentric weights (1/2, 1/4, 1/4).  The kernel's
compensating multiplier is 1 / (1/2 * 1 + 1/4 * 2 + 1/4 * 4) = 1/2 and its
interpolated UV is (3/8, 1/4), while the perspective-correct UV is
(12/11, 8/11): the compensating multiply by the kernel's depth does not
reproduce the perspective-correct UV. -/
theorem kernel_depth_not_perspective_correct :
    interpolatePerspective
        { v0 := { vertexEyePos := ⟨0, 0, 0, 1⟩, vertexPerspPos := ⟨0, 0, 1, 1⟩
                  vertexNormal := zero3, vertexUV := ((1 : ℚ) / 1) • ⟨1, 0⟩ }
          v1 := { vertexEyePos := ⟨0, 0, 0, 1⟩, vertexPerspPos := ⟨0, 0, 2, 1⟩
                  vertexNormal := zero3, vertexUV := ((1 : ℚ) / 2) • ⟨0, 2⟩ }
          v2 := { vertexEyePos := ⟨0, 0, 0, 1⟩, vertexPerspPos := ⟨0, 0, 4, 1⟩
                  vertexNormal := zero3, vertexUV := ((1 : ℚ) / 4) • ⟨4, 4⟩ }
          cull := false }
        ⟨1/2, 1/4, 1/4⟩
        (1 / getZAtCoordinate ⟨1/2, 1/4, 1/4⟩ (triangleOf
          { v0 := { vertexEyePos := ⟨0, 0, 0, 1⟩, vertexPerspPos := ⟨0, 0, 1, 1⟩
                    vertexNormal := zero3, vertexUV := ((1 : ℚ) / 1) • ⟨1, 0⟩ }
            v1 := { vertexEyePos := ⟨0, 0, 0, 1⟩, vertexPerspPos := ⟨0, 0, 2, 1⟩
                    vertexNormal := zero3, vertexUV := ((1 : ℚ) / 2) • ⟨0, 2⟩ }
            v2 := { vertexEyePos := ⟨0, 0, 0, 1⟩, vertexPerspPos := ⟨0, 0, 4, 1⟩
                    vertexNormal := zero3, vertexUV := ((1 : ℚ) / 4) • ⟨4, 4⟩ }
            cull := false }))
      ≠ perspectiveCorrectUV ⟨1/2, 1/4, 1/4⟩ ⟨1, 0⟩ ⟨0, 2⟩ ⟨4, 4⟩ 1 2 4 := by
  decide

/-- C3 (amended): with perspective correction enabled the transformer
stores the UV pre-divided by the z component of the perspective-divided
clip position (z over w, not w itself); with it disabled the UV is stored
unmodified; and for a primitive whose stored UVs are pre-divided by the
same per-vertex z values its screen positions carry, the rasterizer's
compensating multiply by its depth value (the reciprocal of the linearly
interpolated z, rasterize.cu line 777) produces the linear combination of
the pre-divided UVs scaled by that reciprocal - which is not the
perspective-correct UV in general (see the counterexample). -/
theorem vertex_uv_predivided_kernel_multiply (MVP MV : Mat4) (MVn : Mat3)
    (nf : Vec3 → Vec3) (w h : ℤ) (pos nrm : Vec3) (uv : Vec2) (tex : Option ℕ) (tw th : ℤ) :
    ((vertexTransformAndAssembly true MVP MV MVn nf w h pos nrm uv tex tw th).vertexUV
        = (1 / ((MVP.app (worldOf pos)).z / (MVP.app (worldOf pos)).w)) • uv) ∧
    ((vertexTransformAndAssembly false MVP MV MVn nf w h pos nrm uv tex tw th).vertexUV
        = uv) ∧
    (∀ (p : Primitive) (coords : Vec3) (uv0 uv1 uv2 : Vec2) (z0 z1 z2 : ℚ),
      p.v0.vertexUV = (1 / z0) • uv0 →
      p.v1.vertexUV = (1 / z1) • uv1 →
      p.v2.vertexUV = (1 / z2) • uv2 →
      p.v0.vertexPerspPos.z = z0 →
      p.v1.vertexPerspPos.z = z1 →
      p.v2.vertexPerspPos.z = z2 →
      interpolatePerspective p coords (1 / getZAtCoordinate coords (triangleOf p))
        = (1 / (coords.x * z0 + coords.y * z1 + coords.z * z2)) •
            (coords.x • ((1 / z0) • uv0) + coords.y • ((1 / z1) • uv1) +
              coords.z • ((1 / z2) • uv2))) := by
  refine ⟨rfl, rfl, ?_⟩
  intro p coords uv0 uv1 uv2 z0 z1 z2 h0 h1 h2 hz0 hz1 hz2
  simp only [interpolatePerspective, getZAtCoordinate, triangleOf, vec3of,
    h0, h1, h2, hz0, hz1, hz2]

/-- Witness for C3 (amended): the stored UV of a vertex at (1, 2, 4) under
a projection with w-column scale 2 is the UV divided by z/w = 2, and the
kernel's interpolation at weights (1/2, 1/4, 1/4) over the depths 1, 2, 4
equals the characterized scaled combination. -/
theorem vertex_uv_predivided_kernel_multiply_witness :
    ((vertexTransformAndAssembly true
        ⟨⟨1, 0, 0, 0⟩, ⟨0, 1, 0, 0⟩, ⟨0, 0, 1, 0⟩, ⟨0, 0, 0, 2⟩⟩
        ⟨⟨1, 0, 0, 0⟩, ⟨0, 1, 0, 0⟩, ⟨0, 0, 1, 0⟩, ⟨0, 0, 0, 1⟩⟩
        ⟨⟨1, 0, 0⟩, ⟨0, 1, 0⟩, ⟨0, 0, 1⟩⟩ (fun v => v) 8 8 ⟨1, 2, 4⟩ ⟨0, 0, 1⟩ ⟨6, 8⟩
        none 0 0).vertexUV
      = (1 / ((Mat4.app ⟨⟨1, 0, 0, 0⟩, ⟨0, 1, 0, 0⟩, ⟨0, 0, 1, 0⟩, ⟨0, 0, 0, 2⟩⟩
          (worldOf ⟨1, 2, 4⟩)).z /
          (Mat4.app ⟨⟨1, 0, 0, 0⟩, ⟨0, 1, 0, 0⟩, ⟨0, 0, 1, 0⟩, ⟨0, 0, 0, 2⟩⟩
          (worldOf ⟨1, 2, 4⟩)).w)) • ⟨6, 8⟩) ∧
    interpolatePerspective
        { v0 := { vertexEyePos := ⟨0, 0, 0, 1⟩, vertexPerspPos := ⟨0, 0, 1, 1⟩
                  vertexNormal := zero3, vertexUV := ((1 : ℚ) / 1) • ⟨1, 0⟩ }
          v1 := { vertexEyePos := ⟨0, 0, 0, 1⟩, vertexPerspPos := ⟨0, 0, 2, 1⟩
                  vertexNormal := zero3, vertexUV := ((1 : ℚ) / 2) • ⟨0, 2⟩ }
          v2 := { vertexEyePos := ⟨0, 0, 0, 1⟩, vertexPerspPos := ⟨0, 0, 4, 1⟩
                  vertexNormal := zero3, vertexUV := ((1 : ℚ) / 4) • ⟨4, 4⟩ }
          cull := false }
        ⟨1/2, 1/4, 1/4⟩
        (1 / getZAtCoordinate ⟨1/2, 1/4, 1/4⟩ (triangleOf
          { v0 := { vertexEyePos := ⟨0, 0, 0, 1⟩, vertexPerspPos := ⟨0, 0, 1, 1⟩
                    vertexNormal := zero3, vertexUV := ((1 : ℚ) / 1) • ⟨1, 0⟩ }
            v1 := { vertexEyePos := ⟨0, 0, 0, 1⟩, vertexPerspPos := ⟨0, 0, 2, 1⟩
                    vertexNormal := zero3, vertexUV := ((1 : ℚ) / 2) • ⟨0, 2⟩ }
            v2 := { vertexEyePos := ⟨0, 0, 0, 1⟩, vertexPerspPos := ⟨0, 0, 4, 1⟩
                    vertexNormal := zero3, vertexUV := ((1 : ℚ) / 4) • ⟨4, 4⟩ }
            cull := false }))
      = (1 / ((1/2 : ℚ) * 1 + (1/4 : ℚ) * 2 + (1/4 : ℚ) * 4)) •
          ((1/2 : ℚ) • (((1 : ℚ) / 1) • ⟨1, 0⟩) + (1/4 : ℚ) • (((1 : ℚ) / 2) • ⟨0, 2⟩) +
            (1/4 : ℚ) • (((1 : ℚ) / 4) • ⟨4, 4⟩)) := by
  constructor
  · exact (vertex_uv_predivided_kernel_multiply
      ⟨⟨1, 0, 0, 0⟩, ⟨0, 1, 0, 0⟩, ⟨0, 0, 1, 0⟩, ⟨0, 0, 0, 2⟩⟩
      ⟨⟨1, 0, 0, 0⟩, ⟨0, 1, 0, 0⟩, ⟨0, 0, 1, 0⟩, ⟨0, 0, 0, 1⟩⟩
      ⟨⟨1, 0, 0⟩, ⟨0, 1, 0⟩, ⟨0, 0, 1⟩⟩ (fun v => v) 8 8 ⟨1, 2, 4⟩ ⟨0, 0, 1⟩ ⟨6, 8⟩
      none 0 0).1
  · exact (vertex_uv_predivided_kernel_multiply
      ⟨⟨1, 0, 0, 0⟩, ⟨0, 1, 0, 0⟩, ⟨0, 0, 1, 0⟩, ⟨0, 0, 0, 2⟩⟩
      ⟨⟨1, 0, 0, 0⟩, ⟨0, 1, 0, 0⟩, ⟨0, 0, 1, 0⟩, ⟨0, 0, 0, 1⟩⟩
      ⟨⟨1, 0, 0⟩, ⟨0, 1, 0⟩, ⟨0, 0, 1⟩⟩ (fun v => v) 8 8 ⟨1, 2, 4⟩ ⟨0, 0, 1⟩ ⟨6, 8⟩
      none 0 0).2.2 _ ⟨1/2, 1/4, 1/4⟩ ⟨1, 0⟩ ⟨0, 2⟩ ⟨4, 4⟩ 1 2 4
      rfl rfl rfl rfl rfl rfl

end Rasterize
